import Mathlib

/-!
A shallow embedding, in Lean 4, of the service/integration/service-rule part
of a Go client library for an incident-management REST API.

The embedding covers:
* a model of JSON values and of the Go `encoding/json` marshalling and
  unmarshalling conventions for the struct types of the source file
  (`omitempty` tags, embedded-struct flattening, case-insensitive field
  matching on decode, `null` no-op semantics);
* the three envelope-unwrapping helpers `getServiceFromResponse`,
  `getIntegrationFromResponse`, `getServiceRuleFromResponse`;
* the request builders of the CRUD operations (method, path, body);
* the pagination pipeline (`pagedGet` together with the response-handler
  closures of `ListServicesPaginated` and `ListServiceRules`).

Go's `(value, error)` pairs are modelled with `Except`; a nilable
`*http.Response` is an `Option Json` holding the decoded-ready body; a nil
pointer dereference is made explicit by the `panics` outcome of
`HelperResult`.
-/

namespace Pagerduty

/-- A JSON value.  Object fields keep their textual order, as a Go decoder
sees them in the byte stream. -/
inductive Json where
  | null
  | bool (b : Bool)
  | num (n : Int)
  | str (s : String)
  | arr (elems : List Json)
  | obj (fields : List (String × Json))

/-- The kind word Go's `encoding/json` uses in type-mismatch error
messages. -/
def jsonKind : Json → String
  | .null => "null"
  | .bool _ => "bool"
  | .num _ => "number"
  | .str _ => "string"
  | .arr _ => "array"
  | .obj _ => "object"

/-- The `encoding/json` unmarshal type-mismatch error message. -/
def typeErr (j : Json) (target : String) : String :=
  "json: cannot unmarshal " ++ jsonKind j ++ " into Go value of type " ++ target

/-- ASCII lower-casing of a character (the case folding relevant to the
field names of this repository, which are ASCII). -/
def asciiLowerChar (c : Char) : Char :=
  if 65 ≤ c.toNat ∧ c.toNat ≤ 90 then Char.ofNat (c.toNat + 32) else c

/-- ASCII lower-casing of a string. -/
def asciiLower (s : String) : String :=
  ⟨s.data.map asciiLowerChar⟩

/-- Exact-key lookup in an association list, as Go map indexing
(`target[rootNode]`).  On JSON bodies with duplicate keys Go keeps the last
occurrence; the bodies in this development have distinct keys, and the
first-match list lookup used here agrees with Go on them. -/
def lookupMap {α : Type} : List (String × α) → String → Option α
  | [], _ => none
  | (k', v) :: rest, k => if k' = k then some v else lookupMap rest k

/-- Case-insensitive field lookup (the fallback Go's `encoding/json` applies
when matching object keys to struct fields). -/
def ciLookup : List (String × Json) → String → Option Json
  | [], _ => none
  | (k', v) :: rest, k =>
    if asciiLower k' = asciiLower k then some v else ciLookup rest k

/-- Field lookup with Go's struct-field matching rule: prefer an exact key
match, otherwise accept a case-insensitive match. -/
def lookupField (fs : List (String × Json)) (k : String) : Option Json :=
  match lookupMap fs k with
  | some v => some v
  | none => ciLookup fs k

/-- Build a JSON object's field list from per-field encoders: a field whose
encoder yields `none` is omitted (Go's `omitempty` / nil handling). -/
def encodeFields : List (String × Option Json) → List (String × Json)
  | [] => []
  | (_, none) :: rest => encodeFields rest
  | (k, some v) :: rest => (k, v) :: encodeFields rest

/-- Reference lookup over the un-encoded field list: the value the encoder
was given for key `k` (first occurrence). -/
def lookupOF : List (String × Option Json) → String → Option Json
  | [], _ => none
  | (k', v?) :: rest, k => if k' = k then v? else lookupOF rest k

/-! ### Per-field encoders (Go marshalling of tagged struct fields) -/

/-- `string` field with `omitempty`: omitted when `""`. -/
def encStrOmit (s : String) : Option Json :=
  if s = "" then none else some (.str s)

/-- `string` field without `omitempty`: always emitted. -/
def encStrReq (s : String) : Option Json :=
  some (.str s)

/-- `uint` field with `omitempty`: omitted when `0`. -/
def encUIntOmit (n : Nat) : Option Json :=
  if n = 0 then none else some (.num n)

/-- `bool` field with `omitempty`: omitted when `false`. -/
def encBoolOmit (b : Bool) : Option Json :=
  if b then some (.bool true) else none

/-- Pointer field with `omitempty`: a nil pointer is omitted, otherwise the
pointee is encoded. -/
def encPtr {α : Type} (e : α → Json) : Option α → Option Json
  | none => none
  | some x => some (e x)

/-- Slice field with `omitempty`: omitted when empty, otherwise encoded
element-wise. -/
def encSliceOmit {α : Type} (e : α → Json) : List α → Option Json
  | [] => none
  | l => some (.arr (l.map e))

/-- Struct-valued field (with or without `omitempty`, which Go ignores on
struct values): always emitted. -/
def encStruct {α : Type} (e : α → Json) (v : α) : Option Json :=
  some (e v)

/-! ### Per-field decoders (Go unmarshalling)

A missing key leaves the field at its zero value; JSON `null` is a no-op on
non-pointer targets and sets pointer targets to nil; a type mismatch is an
error. -/

/-- Decode a `string` field from its (possibly absent) JSON value. -/
def decStr : Option Json → Except String String
  | none => .ok ""
  | some .null => .ok ""
  | some (.str s) => .ok s
  | some j => .error (typeErr j "string")

/-- Decode a `uint` element value. -/
def decUIntEl : Json → Except String Nat
  | .null => .ok 0
  | .num n => if n < 0 then .error "json: cannot unmarshal number into Go value of type uint" else .ok n.toNat
  | j => .error (typeErr j "uint")

/-- Decode a `uint` field. -/
def decUInt : Option Json → Except String Nat
  | none => .ok 0
  | some j => decUIntEl j

/-- Decode an `int` element value. -/
def decIntEl : Json → Except String Int
  | .null => .ok 0
  | .num n => .ok n
  | j => .error (typeErr j "int")

/-- Decode a `string` element value. -/
def decStrEl : Json → Except String String
  | .null => .ok ""
  | .str s => .ok s
  | j => .error (typeErr j "string")

/-- Decode a `bool` field. -/
def decBool : Option Json → Except String Bool
  | none => .ok false
  | some .null => .ok false
  | some (.bool b) => .ok b
  | some j => .error (typeErr j "bool")

/-- Decode a pointer field: absent key or `null` is a nil pointer. -/
def decPtr {α : Type} (d : Json → Except String α) : Option Json → Except String (Option α)
  | none => .ok none
  | some .null => .ok none
  | some j => (d j).map some

/-- Decode a slice field: absent key or `null` is a nil slice. -/
def decSlice {α : Type} (d : Json → Except String α) : Option Json → Except String (List α)
  | none => .ok []
  | some .null => .ok []
  | some (.arr xs) => xs.mapM d
  | some j => .error (typeErr j "slice")

/-- Decode a struct-valued (non-pointer) field: absent key leaves the zero
value. -/
def decStruct {α : Type} (d : Json → Except String α) (zero : α) : Option Json → Except String α
  | none => .ok zero
  | some j => d j

/-! ### The data model

Types carried over from the source file keep their names and field names
(Go's `Type` becomes `type'`, since `Type` is reserved in Lean).  Types the
source file references but does not define are modelled from the spec and
say so in their doc comments. -/

/-- Modelled from the spec: the embedded identity object (`APIObject`) is
not in the source file; the spec describes an entity's identity as its
remote-assigned ID (`"id"` in the JSON bodies of its scenarios). -/
structure APIObject where
  ID : String := ""

/-- Modelled from the spec: the embedded pagination metadata
(`APIListObject`) is not in the source file; the spec describes it as the
offset/limit/more/total tuple of the list envelopes. -/
structure APIListObject where
  Limit : Nat := 0
  Offset : Nat := 0
  More : Bool := false
  Total : Nat := 0

/-- Modelled from the spec: `EscalationPolicy` is not in the source file;
the spec describes it only as a nested record of a Service, so it is
modelled as an opaque JSON object value. -/
structure EscalationPolicy where
  raw : Json := Json.obj []

/-- Modelled from the spec: `Team` is not in the source file; modelled as an
opaque JSON object value. -/
structure Team where
  raw : Json := Json.obj []

/-- Modelled from the spec: `RuleConditions` (a service rule's conditions
expression) is not in the source file; modelled as an opaque JSON value. -/
structure RuleConditions where
  raw : Json := Json.obj []

/-- Modelled from the spec: `RuleTimeFrame` is not in the source file;
modelled as an opaque JSON value. -/
structure RuleTimeFrame where
  raw : Json := Json.obj []

/-- Modelled from the spec: `RuleActionParameter` is not in the source file;
modelled as an opaque JSON value. -/
structure RuleActionParameter where
  raw : Json := Json.obj []

/-- Modelled from the spec: `RuleActionExtraction` is not in the source
file; modelled as an opaque JSON value (a nil `*RuleActionExtraction` slice
element is the `null` value). -/
structure RuleActionExtraction where
  raw : Json := Json.obj []

/-- Modelled from the spec: `RuleActionSuppress` is not in the source file;
modelled as an opaque JSON value. -/
structure RuleActionSuppress where
  raw : Json := Json.obj []

/-- Modelled from the spec: `RuleActionSuspend` is not in the source file;
modelled as an opaque JSON value. -/
structure RuleActionSuspend where
  raw : Json := Json.obj []

/-- `Integration` (source lines 14-23): an endpoint that generates events.
Embeds `APIObject`. -/
structure Integration where
  APIObject : APIObject := {}
  Name : String := ""
  Service : Option Pagerduty.APIObject := none
  CreatedAt : String := ""
  Vendor : Option Pagerduty.APIObject := none
  type' : String := ""
  IntegrationKey : String := ""
  IntegrationEmail : String := ""

/-- `InlineModel` (source lines 26-29). -/
structure InlineModel where
  type' : String := ""
  Name : String := ""

/-- `ScheduledAction` (source lines 32-36).  `At` is a struct field (its
`omitempty` is inert); `ToUrgency` has no `omitempty`. -/
structure ScheduledAction where
  type' : String := ""
  At : InlineModel := {}
  ToUrgency : String := ""

/-- `IncidentUrgencyType` (source lines 39-42). -/
structure IncidentUrgencyType where
  type' : String := ""
  Urgency : String := ""

/-- `SupportHours` (source lines 45-51). -/
structure SupportHours where
  type' : String := ""
  Timezone : String := ""
  StartTime : String := ""
  EndTime : String := ""
  DaysOfWeek : List Nat := []

/-- `IncidentUrgencyRule` (source lines 54-59). -/
structure IncidentUrgencyRule where
  type' : String := ""
  Urgency : String := ""
  DuringSupportHours : Option IncidentUrgencyType := none
  OutsideSupportHours : Option IncidentUrgencyType := none

/-- `AlertGroupParamsConfig` (source lines 121-125). -/
structure AlertGroupParamsConfig where
  Timeout : Nat := 0
  Aggregate : String := ""
  Fields : List String := []

/-- `AlertGroupingParameters` (source lines 115-118).  Neither field has
`omitempty`. -/
structure AlertGroupingParameters where
  type' : String := ""
  Config : AlertGroupParamsConfig := {}

/-- `Service` (source lines 93-112).  Embeds `APIObject`; the `CreateAt`
field name (sic) is the source's. -/
structure Service where
  APIObject : APIObject := {}
  Name : String := ""
  Description : String := ""
  AutoResolveTimeout : Option Nat := none
  AcknowledgementTimeout : Option Nat := none
  CreateAt : String := ""
  Status : String := ""
  LastIncidentTimestamp : String := ""
  Integrations : List Integration := []
  EscalationPolicy : EscalationPolicy := {}
  Teams : List Team := []
  IncidentUrgencyRule : Option IncidentUrgencyRule := none
  SupportHours : Option SupportHours := none
  ScheduledActions : List ScheduledAction := []
  AlertCreation : String := ""
  AlertGrouping : String := ""
  AlertGroupingTimeout : Option Nat := none
  AlertGroupingParameters : Option AlertGroupingParameters := none

/-- `ServiceRuleActions` (source lines 82-90). -/
structure ServiceRuleActions where
  Annotate : Option RuleActionParameter := none
  EventAction : Option RuleActionParameter := none
  Extractions : List RuleActionExtraction := []
  Priority : Option RuleActionParameter := none
  Severity : Option RuleActionParameter := none
  Suppress : Option RuleActionSuppress := none
  Suspend : Option RuleActionSuspend := none

/-- `ServiceRule` (source lines 71-79). -/
structure ServiceRule where
  ID : String := ""
  Self : String := ""
  Disabled : Bool := false
  Conditions : Option RuleConditions := none
  TimeFrame : Option RuleTimeFrame := none
  Position : Option Int := none
  Actions : Option ServiceRuleActions := none

/-- `ListServiceRulesResponse` (source lines 62-68).  `Rules` is
`[]*ServiceRule`: its elements are nilable. -/
structure ListServiceRulesResponse where
  Offset : Nat := 0
  Limit : Nat := 0
  More : Bool := false
  Total : Nat := 0
  Rules : List (Option ServiceRule) := []

/-- `ListServiceResponse` (source lines 138-141).  Embeds `APIListObject`;
the `Services` field has no json tag, so its JSON key is the field name
`Services`, matched case-insensitively on decode. -/
structure ListServiceResponse where
  APIListObject : APIListObject := {}
  Services : List Service := []

/-! ### Encoders (Go `json.Marshal` on the records above) -/

/-- The flattened fields an embedded `APIObject` contributes. -/
def apiObjectFields (a : APIObject) : List (String × Option Json) :=
  [("id", encStrOmit a.ID)]

/-- Marshal an `APIObject` (as a pointee of `*APIObject` fields). -/
def encodeAPIObject (a : APIObject) : Json :=
  .obj (encodeFields (apiObjectFields a))

/-- Marshal an `EscalationPolicy` (opaque model). -/
def encodeEscalationPolicy (e : EscalationPolicy) : Json := e.raw

/-- Marshal a `Team` (opaque model). -/
def encodeTeam (t : Team) : Json := t.raw

/-- Marshal a `RuleConditions` (opaque model). -/
def encodeRuleConditions (c : RuleConditions) : Json := c.raw

/-- Marshal a `RuleTimeFrame` (opaque model). -/
def encodeRuleTimeFrame (t : RuleTimeFrame) : Json := t.raw

/-- Marshal a `RuleActionParameter` (opaque model). -/
def encodeRuleActionParameter (p : RuleActionParameter) : Json := p.raw

/-- Marshal a `RuleActionExtraction` (opaque model). -/
def encodeRuleActionExtraction (x : RuleActionExtraction) : Json := x.raw

/-- Marshal a `RuleActionSuppress` (opaque model). -/
def encodeRuleActionSuppress (s : RuleActionSuppress) : Json := s.raw

/-- Marshal a `RuleActionSuspend` (opaque model). -/
def encodeRuleActionSuspend (s : RuleActionSuspend) : Json := s.raw

/-- The field list `json.Marshal` produces for an `Integration`. -/
def integrationFields (i : Integration) : List (String × Option Json) :=
  apiObjectFields i.APIObject ++
  [("name", encStrOmit i.Name),
   ("service", encPtr encodeAPIObject i.Service),
   ("created_at", encStrOmit i.CreatedAt),
   ("vendor", encPtr encodeAPIObject i.Vendor),
   ("type", encStrOmit i.type'),
   ("integration_key", encStrOmit i.IntegrationKey),
   ("integration_email", encStrOmit i.IntegrationEmail)]

/-- Marshal an `Integration`. -/
def encodeIntegration (i : Integration) : Json :=
  .obj (encodeFields (integrationFields i))

/-- The field list for an `InlineModel`. -/
def inlineModelFields (m : InlineModel) : List (String × Option Json) :=
  [("type", encStrOmit m.type'), ("name", encStrOmit m.Name)]

/-- Marshal an `InlineModel`. -/
def encodeInlineModel (m : InlineModel) : Json :=
  .obj (encodeFields (inlineModelFields m))

/-- The field list for a `ScheduledAction`. -/
def scheduledActionFields (a : ScheduledAction) : List (String × Option Json) :=
  [("type", encStrOmit a.type'),
   ("at", encStruct encodeInlineModel a.At),
   ("to_urgency", encStrReq a.ToUrgency)]

/-- Marshal a `ScheduledAction`. -/
def encodeScheduledAction (a : ScheduledAction) : Json :=
  .obj (encodeFields (scheduledActionFields a))

/-- The field list for an `IncidentUrgencyType`. -/
def incidentUrgencyTypeFields (t : IncidentUrgencyType) : List (String × Option Json) :=
  [("type", encStrOmit t.type'), ("urgency", encStrOmit t.Urgency)]

/-- Marshal an `IncidentUrgencyType`. -/
def encodeIncidentUrgencyType (t : IncidentUrgencyType) : Json :=
  .obj (encodeFields (incidentUrgencyTypeFields t))

/-- The field list for a `SupportHours`. -/
def supportHoursFields (h : SupportHours) : List (String × Option Json) :=
  [("type", encStrOmit h.type'),
   ("time_zone", encStrOmit h.Timezone),
   ("start_time", encStrOmit h.StartTime),
   ("end_time", encStrOmit h.EndTime),
   ("days_of_week", encSliceOmit (fun n : Nat => Json.num n) h.DaysOfWeek)]

/-- Marshal a `SupportHours`. -/
def encodeSupportHours (h : SupportHours) : Json :=
  .obj (encodeFields (supportHoursFields h))

/-- The field list for an `IncidentUrgencyRule`. -/
def incidentUrgencyRuleFields (r : IncidentUrgencyRule) : List (String × Option Json) :=
  [("type", encStrOmit r.type'),
   ("urgency", encStrOmit r.Urgency),
   ("during_support_hours", encPtr encodeIncidentUrgencyType r.DuringSupportHours),
   ("outside_support_hours", encPtr encodeIncidentUrgencyType r.OutsideSupportHours)]

/-- Marshal an `IncidentUrgencyRule`. -/
def encodeIncidentUrgencyRule (r : IncidentUrgencyRule) : Json :=
  .obj (encodeFields (incidentUrgencyRuleFields r))

/-- The field list for an `AlertGroupParamsConfig`. -/
def alertGroupParamsConfigFields (c : AlertGroupParamsConfig) : List (String × Option Json) :=
  [("timeout", encUIntOmit c.Timeout),
   ("aggregate", encStrOmit c.Aggregate),
   ("fields", encSliceOmit (fun s => Json.str s) c.Fields)]

/-- Marshal an `AlertGroupParamsConfig`. -/
def encodeAlertGroupParamsConfig (c : AlertGroupParamsConfig) : Json :=
  .obj (encodeFields (alertGroupParamsConfigFields c))

/-- The field list for an `AlertGroupingParameters` (no `omitempty`). -/
def alertGroupingParametersFields (p : AlertGroupingParameters) : List (String × Option Json) :=
  [("type", encStrReq p.type'),
   ("config", encStruct encodeAlertGroupParamsConfig p.Config)]

/-- Marshal an `AlertGroupingParameters`. -/
def encodeAlertGroupingParameters (p : AlertGroupingParameters) : Json :=
  .obj (encodeFields (alertGroupingParametersFields p))

/-- The field list `json.Marshal` produces for a `Service` (embedded
`APIObject` fields first, then the declared fields in order). -/
def serviceFields (s : Service) : List (String × Option Json) :=
  apiObjectFields s.APIObject ++
  [("name", encStrOmit s.Name),
   ("description", encStrOmit s.Description),
   ("auto_resolve_timeout", encPtr (fun n : Nat => Json.num n) s.AutoResolveTimeout),
   ("acknowledgement_timeout", encPtr (fun n : Nat => Json.num n) s.AcknowledgementTimeout),
   ("created_at", encStrOmit s.CreateAt),
   ("status", encStrOmit s.Status),
   ("last_incident_timestamp", encStrOmit s.LastIncidentTimestamp),
   ("integrations", encSliceOmit encodeIntegration s.Integrations),
   ("escalation_policy", encStruct encodeEscalationPolicy s.EscalationPolicy),
   ("teams", encSliceOmit encodeTeam s.Teams),
   ("incident_urgency_rule", encPtr encodeIncidentUrgencyRule s.IncidentUrgencyRule),
   ("support_hours", encPtr encodeSupportHours s.SupportHours),
   ("scheduled_actions", encSliceOmit encodeScheduledAction s.ScheduledActions),
   ("alert_creation", encStrOmit s.AlertCreation),
   ("alert_grouping", encStrOmit s.AlertGrouping),
   ("alert_grouping_timeout", encPtr (fun n : Nat => Json.num n) s.AlertGroupingTimeout),
   ("alert_grouping_parameters", encPtr encodeAlertGroupingParameters s.AlertGroupingParameters)]

/-- Marshal a `Service`. -/
def encodeService (s : Service) : Json :=
  .obj (encodeFields (serviceFields s))

/-- The field list for a `ServiceRuleActions`. -/
def serviceRuleActionsFields (a : ServiceRuleActions) : List (String × Option Json) :=
  [("annotate", encPtr encodeRuleActionParameter a.Annotate),
   ("event_action", encPtr encodeRuleActionParameter a.EventAction),
   ("extractions", encSliceOmit encodeRuleActionExtraction a.Extractions),
   ("priority", encPtr encodeRuleActionParameter a.Priority),
   ("severity", encPtr encodeRuleActionParameter a.Severity),
   ("suppress", encPtr encodeRuleActionSuppress a.Suppress),
   ("suspend", encPtr encodeRuleActionSuspend a.Suspend)]

/-- Marshal a `ServiceRuleActions`. -/
def encodeServiceRuleActions (a : ServiceRuleActions) : Json :=
  .obj (encodeFields (serviceRuleActionsFields a))

/-- The field list for a `ServiceRule`. -/
def serviceRuleFields (r : ServiceRule) : List (String × Option Json) :=
  [("id", encStrOmit r.ID),
   ("self", encStrOmit r.Self),
   ("disabled", encBoolOmit r.Disabled),
   ("conditions", encPtr encodeRuleConditions r.Conditions),
   ("time_frame", encPtr encodeRuleTimeFrame r.TimeFrame),
   ("position", encPtr (fun n => Json.num n) r.Position),
   ("actions", encPtr encodeServiceRuleActions r.Actions)]

/-- Marshal a `ServiceRule`. -/
def encodeServiceRule (r : ServiceRule) : Json :=
  .obj (encodeFields (serviceRuleFields r))

/-! ### Decoders (Go `json.Unmarshal` into the records above)

Unmarshalling `null` into a struct is a no-op (the zero value survives);
unknown object keys are ignored; anything but an object or `null` is a type
error. -/

/-- Unmarshal an `APIObject`. -/
def decodeAPIObject : Json → Except String APIObject
  | .null => .ok {}
  | .obj fs => do
    let id ← decStr (lookupField fs "id")
    .ok { ID := id }
  | j => .error (typeErr j "pagerduty.APIObject")

/-- Unmarshal an `EscalationPolicy` (opaque model: the value is kept
verbatim). -/
def decodeEscalationPolicy (j : Json) : Except String EscalationPolicy :=
  .ok { raw := j }

/-- Unmarshal a `Team` (opaque model). -/
def decodeTeam (j : Json) : Except String Team :=
  .ok { raw := j }

/-- Unmarshal a `RuleConditions` (opaque model). -/
def decodeRuleConditions (j : Json) : Except String RuleConditions :=
  .ok { raw := j }

/-- Unmarshal a `RuleTimeFrame` (opaque model). -/
def decodeRuleTimeFrame (j : Json) : Except String RuleTimeFrame :=
  .ok { raw := j }

/-- Unmarshal a `RuleActionParameter` (opaque model). -/
def decodeRuleActionParameter (j : Json) : Except String RuleActionParameter :=
  .ok { raw := j }

/-- Unmarshal a `RuleActionExtraction` (opaque model). -/
def decodeRuleActionExtraction (j : Json) : Except String RuleActionExtraction :=
  .ok { raw := j }

/-- Unmarshal a `RuleActionSuppress` (opaque model). -/
def decodeRuleActionSuppress (j : Json) : Except String RuleActionSuppress :=
  .ok { raw := j }

/-- Unmarshal a `RuleActionSuspend` (opaque model). -/
def decodeRuleActionSuspend (j : Json) : Except String RuleActionSuspend :=
  .ok { raw := j }

/-- Unmarshal an `Integration`. -/
def decodeIntegration : Json → Except String Integration
  | .null => .ok {}
  | .obj fs => do
    let id ← decStr (lookupField fs "id")
    let name ← decStr (lookupField fs "name")
    let service ← decPtr decodeAPIObject (lookupField fs "service")
    let createdAt ← decStr (lookupField fs "created_at")
    let vendor ← decPtr decodeAPIObject (lookupField fs "vendor")
    let ty ← decStr (lookupField fs "type")
    let key ← decStr (lookupField fs "integration_key")
    let email ← decStr (lookupField fs "integration_email")
    .ok { APIObject := { ID := id }, Name := name, Service := service,
          CreatedAt := createdAt, Vendor := vendor, type' := ty,
          IntegrationKey := key, IntegrationEmail := email }
  | j => .error (typeErr j "pagerduty.Integration")

/-- Unmarshal an `InlineModel`. -/
def decodeInlineModel : Json → Except String InlineModel
  | .null => .ok {}
  | .obj fs => do
    let ty ← decStr (lookupField fs "type")
    let name ← decStr (lookupField fs "name")
    .ok { type' := ty, Name := name }
  | j => .error (typeErr j "pagerduty.InlineModel")

/-- Unmarshal a `ScheduledAction`. -/
def decodeScheduledAction : Json → Except String ScheduledAction
  | .null => .ok {}
  | .obj fs => do
    let ty ← decStr (lookupField fs "type")
    let at' ← decStruct decodeInlineModel {} (lookupField fs "at")
    let toUrgency ← decStr (lookupField fs "to_urgency")
    .ok { type' := ty, At := at', ToUrgency := toUrgency }
  | j => .error (typeErr j "pagerduty.ScheduledAction")

/-- Unmarshal an `IncidentUrgencyType`. -/
def decodeIncidentUrgencyType : Json → Except String IncidentUrgencyType
  | .null => .ok {}
  | .obj fs => do
    let ty ← decStr (lookupField fs "type")
    let urgency ← decStr (lookupField fs "urgency")
    .ok { type' := ty, Urgency := urgency }
  | j => .error (typeErr j "pagerduty.IncidentUrgencyType")

/-- Unmarshal a `SupportHours`. -/
def decodeSupportHours : Json → Except String SupportHours
  | .null => .ok {}
  | .obj fs => do
    let ty ← decStr (lookupField fs "type")
    let tz ← decStr (lookupField fs "time_zone")
    let start ← decStr (lookupField fs "start_time")
    let stop ← decStr (lookupField fs "end_time")
    let days ← decSlice decUIntEl (lookupField fs "days_of_week")
    .ok { type' := ty, Timezone := tz, StartTime := start, EndTime := stop,
          DaysOfWeek := days }
  | j => .error (typeErr j "pagerduty.SupportHours")

/-- Unmarshal an `IncidentUrgencyRule`. -/
def decodeIncidentUrgencyRule : Json → Except String IncidentUrgencyRule
  | .null => .ok {}
  | .obj fs => do
    let ty ← decStr (lookupField fs "type")
    let urgency ← decStr (lookupField fs "urgency")
    let during ← decPtr decodeIncidentUrgencyType (lookupField fs "during_support_hours")
    let outside ← decPtr decodeIncidentUrgencyType (lookupField fs "outside_support_hours")
    .ok { type' := ty, Urgency := urgency, DuringSupportHours := during,
          OutsideSupportHours := outside }
  | j => .error (typeErr j "pagerduty.IncidentUrgencyRule")

/-- Unmarshal an `AlertGroupParamsConfig`. -/
def decodeAlertGroupParamsConfig : Json → Except String AlertGroupParamsConfig
  | .null => .ok {}
  | .obj fs => do
    let timeout ← decUInt (lookupField fs "timeout")
    let aggregate ← decStr (lookupField fs "aggregate")
    let fields ← decSlice decStrEl (lookupField fs "fields")
    .ok { Timeout := timeout, Aggregate := aggregate, Fields := fields }
  | j => .error (typeErr j "pagerduty.AlertGroupParamsConfig")

/-- Unmarshal an `AlertGroupingParameters`. -/
def decodeAlertGroupingParameters : Json → Except String AlertGroupingParameters
  | .null => .ok {}
  | .obj fs => do
    let ty ← decStr (lookupField fs "type")
    let config ← decStruct decodeAlertGroupParamsConfig {} (lookupField fs "config")
    .ok { type' := ty, Config := config }
  | j => .error (typeErr j "pagerduty.AlertGroupingParameters")

/-- Unmarshal a `Service`. -/
def decodeService : Json → Except String Service
  | .null => .ok {}
  | .obj fs => do
    let id ← decStr (lookupField fs "id")
    let name ← decStr (lookupField fs "name")
    let description ← decStr (lookupField fs "description")
    let autoResolve ← decPtr decUIntEl (lookupField fs "auto_resolve_timeout")
    let ackTimeout ← decPtr decUIntEl (lookupField fs "acknowledgement_timeout")
    let createdAt ← decStr (lookupField fs "created_at")
    let status ← decStr (lookupField fs "status")
    let lastIncident ← decStr (lookupField fs "last_incident_timestamp")
    let integrations ← decSlice decodeIntegration (lookupField fs "integrations")
    let escalation ← decStruct decodeEscalationPolicy {} (lookupField fs "escalation_policy")
    let teams ← decSlice decodeTeam (lookupField fs "teams")
    let urgencyRule ← decPtr decodeIncidentUrgencyRule (lookupField fs "incident_urgency_rule")
    let supportHours ← decPtr decodeSupportHours (lookupField fs "support_hours")
    let scheduled ← decSlice decodeScheduledAction (lookupField fs "scheduled_actions")
    let alertCreation ← decStr (lookupField fs "alert_creation")
    let alertGrouping ← decStr (lookupField fs "alert_grouping")
    let alertGroupingTimeout ← decPtr decUIntEl (lookupField fs "alert_grouping_timeout")
    let alertGroupingParams ← decPtr decodeAlertGroupingParameters (lookupField fs "alert_grouping_parameters")
    .ok { APIObject := { ID := id }, Name := name, Description := description,
          AutoResolveTimeout := autoResolve,
          AcknowledgementTimeout := ackTimeout, CreateAt := createdAt,
          Status := status, LastIncidentTimestamp := lastIncident,
          Integrations := integrations, EscalationPolicy := escalation,
          Teams := teams, IncidentUrgencyRule := urgencyRule,
          SupportHours := supportHours, ScheduledActions := scheduled,
          AlertCreation := alertCreation, AlertGrouping := alertGrouping,
          AlertGroupingTimeout := alertGroupingTimeout,
          AlertGroupingParameters := alertGroupingParams }
  | j => .error (typeErr j "pagerduty.Service")

/-- Unmarshal a `ServiceRuleActions`. -/
def decodeServiceRuleActions : Json → Except String ServiceRuleActions
  | .null => .ok {}
  | .obj fs => do
    let annotate ← decPtr decodeRuleActionParameter (lookupField fs "annotate")
    let eventAction ← decPtr decodeRuleActionParameter (lookupField fs "event_action")
    let extractions ← decSlice decodeRuleActionExtraction (lookupField fs "extractions")
    let priority ← decPtr decodeRuleActionParameter (lookupField fs "priority")
    let severity ← decPtr decodeRuleActionParameter (lookupField fs "severity")
    let suppress ← decPtr decodeRuleActionSuppress (lookupField fs "suppress")
    let suspend ← decPtr decodeRuleActionSuspend (lookupField fs "suspend")
    .ok { Annotate := annotate, EventAction := eventAction,
          Extractions := extractions, Priority := priority,
          Severity := severity, Suppress := suppress, Suspend := suspend }
  | j => .error (typeErr j "pagerduty.ServiceRuleActions")

/-- Unmarshal a `ServiceRule`. -/
def decodeServiceRule : Json → Except String ServiceRule
  | .null => .ok {}
  | .obj fs => do
    let id ← decStr (lookupField fs "id")
    let self ← decStr (lookupField fs "self")
    let disabled ← decBool (lookupField fs "disabled")
    let conditions ← decPtr decodeRuleConditions (lookupField fs "conditions")
    let timeFrame ← decPtr decodeRuleTimeFrame (lookupField fs "time_frame")
    let position ← decPtr decIntEl (lookupField fs "position")
    let actions ← decPtr decodeServiceRuleActions (lookupField fs "actions")
    .ok { ID := id, Self := self, Disabled := disabled,
          Conditions := conditions, TimeFrame := timeFrame,
          Position := position, Actions := actions }
  | j => .error (typeErr j "pagerduty.ServiceRule")

/-- Unmarshal a `*ServiceRule` slice element (a nilable pointer). -/
def decodeServiceRulePtr : Json → Except String (Option ServiceRule)
  | .null => .ok none
  | j => (decodeServiceRule j).map some

/-- Unmarshal a `ListServiceRulesResponse`. -/
def decodeListServiceRulesResponse : Json → Except String ListServiceRulesResponse
  | .null => .ok {}
  | .obj fs => do
    let offset ← decUInt (lookupField fs "offset")
    let limit ← decUInt (lookupField fs "limit")
    let more ← decBool (lookupField fs "more")
    let total ← decUInt (lookupField fs "total")
    let rules ← decSlice decodeServiceRulePtr (lookupField fs "rules")
    .ok { Offset := offset, Limit := limit, More := more, Total := total,
          Rules := rules }
  | j => .error (typeErr j "pagerduty.ListServiceRulesResponse")

/-- Unmarshal a `ListServiceResponse`.  The embedded `APIListObject` fields
are read from the same object; the untagged `Services` field matches the
lower-case key `services` through Go's case-insensitive fallback. -/
def decodeListServiceResponse : Json → Except String ListServiceResponse
  | .null => .ok {}
  | .obj fs => do
    let limit ← decUInt (lookupField fs "limit")
    let offset ← decUInt (lookupField fs "offset")
    let more ← decBool (lookupField fs "more")
    let total ← decUInt (lookupField fs "total")
    let services ← decSlice decodeService (lookupField fs "Services")
    .ok { APIListObject := { Limit := limit, Offset := offset, More := more,
                             Total := total },
          Services := services }
  | j => .error (typeErr j "pagerduty.ListServiceResponse")

/-- Unmarshal a `map[string]Service` envelope (the decode target of
`getServiceFromResponse`): the body must be an object (or `null`, giving a
nil map) and every value must unmarshal as a `Service`. -/
def decodeMapService : Json → Except String (List (String × Service))
  | .null => .ok []
  | .obj fs => fs.mapM (fun p => do
      let v ← decodeService p.2
      pure (p.1, v))
  | j => .error (typeErr j "map[string]pagerduty.Service")

/-- Unmarshal a `map[string]Integration` envelope. -/
def decodeMapIntegration : Json → Except String (List (String × Integration))
  | .null => .ok []
  | .obj fs => fs.mapM (fun p => do
      let v ← decodeIntegration p.2
      pure (p.1, v))
  | j => .error (typeErr j "map[string]pagerduty.Integration")

/-- Unmarshal a `map[string]ServiceRule` envelope. -/
def decodeMapServiceRule : Json → Except String (List (String × ServiceRule))
  | .null => .ok []
  | .obj fs => fs.mapM (fun p => do
      let v ← decodeServiceRule p.2
      pure (p.1, v))
  | j => .error (typeErr j "map[string]pagerduty.ServiceRule")

/-! ### The envelope-unwrapping helpers

A Go call site sees `(resp *http.Response, err error)`: `resp` is an
`Option Json` (the response's decoded-ready body, `none` for a nil
response), `err` an `Option String`.  The outcome type makes a nil pointer
dereference explicit instead of crashing the process. -/

/-- The outcome of a client operation: a runtime panic (nil dereference), an
error value, or a typed result. -/
inductive HelperResult (α : Type) where
  | panics
  | fail (msg : String)
  | ok (val : α)

/-- How Go's `fmt` verb `%v` renders an error variable: a nil error prints
as `<nil>`. -/
def goErrFmt : Option String → String
  | none => "<nil>"
  | some e => e

/-- `getServiceFromResponse` (source lines 334-350).  When `err` is non-nil
the source first reads `resp.Status` and `resp.Body` for a log line; on a
nil response that dereference is a runtime panic. -/
def getServiceFromResponse (resp : Option Json) (err : Option String) : HelperResult Service :=
  match err, resp with
  | some _, none => .panics
  | some e, some _ => .fail e
  | none, none => .panics
  | none, some body =>
    match decodeMapService body with
    | .error dErr => .fail ("Could not decode JSON response: " ++ dErr)
    | .ok target =>
      match lookupMap target "service" with
      | none => .fail "JSON response does not have service field"
      | some t => .ok t

/-- `getIntegrationFromResponse` (source lines 352-366).  A non-nil `err`
returns immediately (no dereference).  On a decode failure the source
formats the outer `err` — which is provably nil in that branch — instead of
the decode error `dErr`, so the message ends in `<nil>`. -/
def getIntegrationFromResponse (resp : Option Json) (err : Option String) : HelperResult Integration :=
  match err, resp with
  | some e, _ => .fail e
  | none, none => .panics
  | none, some body =>
    match decodeMapIntegration body with
    | .error _dErr => .fail ("Could not decode JSON response: " ++ goErrFmt none)
    | .ok target =>
      match lookupMap target "integration" with
      | none => .fail "JSON response does not have integration field"
      | some t => .ok t

/-- `getServiceRuleFromResponse` (source lines 318-332).  Returns the rule
together with the response it came from (the source's `(*ServiceRule,
*http.Response, error)` triple). -/
def getServiceRuleFromResponse (resp : Option Json) (err : Option String) : HelperResult (ServiceRule × Option Json) :=
  match err, resp with
  | some e, _ => .fail e
  | none, none => .panics
  | none, some body =>
    match decodeMapServiceRule body with
    | .error dErr => .fail ("Could not decode JSON response: " ++ dErr)
    | .ok target =>
      match lookupMap target "rule" with
      | none => .fail "JSON response does not have rule field"
      | some t => .ok (t, some body)

/-! ### Requests and single-shot operations

The generic HTTP capability (`c.get`/`c.post`/`c.put`/`c.delete`) is an
external collaborator; an operation builds a `Request` and hands it to a
caller-supplied `send`, which answers with the `(resp, err)` pair. -/

/-- An HTTP request as the client assembles it: method, path (with encoded
query), and an optional JSON body. -/
structure Request where
  method : String
  path : String
  body : Option Json := none

/-- The HTTP capability: answers a request with a nilable response body and
a nilable error. -/
def SendFn : Type := Request → Option Json × Option String

/-- The request `GetService` issues.  `q` is the encoded query string. -/
def getServiceRequest (id : String) (q : String) : Request :=
  { method := "GET", path := "/services/" ++ id ++ "?" ++ q }

/-- `GetService` (source lines 190-194).  `qres` is the outcome of
`query.Values(o)` followed by `Encode` (the external query-string library):
on failure `query.Values` yields nil values, which encode to the empty
string.  The source binds `v, err := query.Values(o)` and then immediately
rebinds `err` to the HTTP call's error without checking it. -/
def GetService (id : String) (qres : Except String String) (send : SendFn) : HelperResult Service :=
  let v := match qres with
    | .ok enc => enc
    | .error _ => ""
  let r := send (getServiceRequest id v)
  getServiceFromResponse r.1 r.2

/-- The request `CreateService` issues: the record wrapped in a
single-key `service` envelope (the source's `map[string]Service`). -/
def createServiceRequest (s : Service) : Request :=
  { method := "POST", path := "/services",
    body := some (Json.obj [("service", encodeService s)]) }

/-- `CreateService` (source lines 197-202). -/
def CreateService (s : Service) (send : SendFn) : HelperResult Service :=
  let r := send (createServiceRequest s)
  getServiceFromResponse r.1 r.2

/-- The request `UpdateService` issues: the anonymous wrapper struct with
the `service` tag marshals to the same single-key envelope. -/
def updateServiceRequest (s : Service) : Request :=
  { method := "PUT", path := "/services/" ++ s.APIObject.ID,
    body := some (Json.obj [("service", encodeService s)]) }

/-- `UpdateService` (source lines 205-213). -/
def UpdateService (s : Service) (send : SendFn) : HelperResult Service :=
  let r := send (updateServiceRequest s)
  getServiceFromResponse r.1 r.2

/-- The request `CreateIntegration` issues: a `map[string]Integration`
envelope under `integration`. -/
def createIntegrationRequest (id : String) (i : Integration) : Request :=
  { method := "POST", path := "/services/" ++ id ++ "/integrations",
    body := some (Json.obj [("integration", encodeIntegration i)]) }

/-- `CreateIntegration` (source lines 222-227). -/
def CreateIntegration (id : String) (i : Integration) (send : SendFn) : HelperResult Integration :=
  let r := send (createIntegrationRequest id i)
  getIntegrationFromResponse r.1 r.2

/-- The request `UpdateIntegration` issues: the source passes `i` itself as
the body, with no envelope. -/
def updateIntegrationRequest (serviceID : String) (i : Integration) : Request :=
  { method := "PUT",
    path := "/services/" ++ serviceID ++ "/integrations/" ++ i.APIObject.ID,
    body := some (encodeIntegration i) }

/-- `UpdateIntegration` (source lines 245-248). -/
def UpdateIntegration (serviceID : String) (i : Integration) (send : SendFn) : HelperResult Integration :=
  let r := send (updateIntegrationRequest serviceID i)
  getIntegrationFromResponse r.1 r.2

/-- The base path `ListServiceRules` hands to the pagination driver. -/
def listServiceRulesBasePath (serviceID : String) : String :=
  "/services/" ++ serviceID ++ "/rules"

/-- The request `GetServiceRule` issues. -/
def getServiceRuleRequest (serviceID ruleID : String) : Request :=
  { method := "GET", path := "/services/" ++ serviceID ++ "/rules/" ++ ruleID }

/-- `GetServiceRule` (source lines 291-294). -/
def GetServiceRule (serviceID ruleID : String) (send : SendFn) : HelperResult (ServiceRule × Option Json) :=
  let r := send (getServiceRuleRequest serviceID ruleID)
  getServiceRuleFromResponse r.1 r.2

/-- The request `DeleteServiceRule` issues. -/
def deleteServiceRuleRequest (serviceID ruleID : String) : Request :=
  { method := "DELETE", path := "/services/" ++ serviceID ++ "/rules/" ++ ruleID }

/-- The request `CreateServiceRule` issues: a `rule` envelope, posted to the
collection path with a trailing slash (as written in the source). -/
def createServiceRuleRequest (serviceID : String) (rule : ServiceRule) : Request :=
  { method := "POST", path := "/services/" ++ serviceID ++ "/rules/",
    body := some (Json.obj [("rule", encodeServiceRule rule)]) }

/-- `CreateServiceRule` (source lines 303-308). -/
def CreateServiceRule (serviceID : String) (rule : ServiceRule) (send : SendFn) : HelperResult (ServiceRule × Option Json) :=
  let r := send (createServiceRuleRequest serviceID rule)
  getServiceRuleFromResponse r.1 r.2

/-- The request `UpdateServiceRule` issues: a `rule` envelope. -/
def updateServiceRuleRequest (serviceID ruleID : String) (rule : ServiceRule) : Request :=
  { method := "PUT", path := "/services/" ++ serviceID ++ "/rules/" ++ ruleID,
    body := some (Json.obj [("rule", encodeServiceRule rule)]) }

/-- `UpdateServiceRule` (source lines 311-316). -/
def UpdateServiceRule (serviceID ruleID : String) (rule : ServiceRule) (send : SendFn) : HelperResult (ServiceRule × Option Json) :=
  let r := send (updateServiceRuleRequest serviceID ruleID rule)
  getServiceRuleFromResponse r.1 r.2

/-! ### Pagination -/

/-- Modelled from the spec: the pagination driver `pagedGet` is not in the
source file.  Per the spec it takes a base path and a per-page response
handler, repeatedly fetches a page and invokes the handler, advancing while
the returned more-flag is true, and fails fast on the first fetch or
handler error.  `pages` is the sequence of successive page-fetch outcomes
the server produces for this call; running off its end is a fetch
failure. -/
def pagedGet {σ : Type} (_basePath : String) (pages : List (Except String Json))
    (handler : σ → Json → Except String (σ × APIListObject)) (acc : σ) : Except String σ :=
  match pages with
  | [] => .error "no page response available"
  | page :: rest =>
    match page with
    | .error e => .error e
    | .ok body =>
      match handler acc body with
      | .error e => .error e
      | .ok (acc', meta) => if meta.More then pagedGet _basePath rest handler acc' else .ok acc'

/-- The response-handler closure of `ListServicesPaginated` (source lines
164-177): decode the page, append its services to the accumulator, and
report the page metadata. -/
def servicesPageHandler (services : List Service) (body : Json) : Except String (List Service × APIListObject) :=
  match decodeListServiceResponse body with
  | .error e => .error e
  | .ok result =>
    .ok (services ++ result.Services,
         { More := result.APIListObject.More,
           Offset := result.APIListObject.Offset,
           Limit := result.APIListObject.Limit })

/-- `ListServicesPaginated` (source lines 158-182).  `qres` is the
`query.Values(o)` outcome (checked here, unlike in `GetService`); `pages`
is the server's page sequence. -/
def ListServicesPaginated (qres : Except String String) (pages : List (Except String Json)) : Except String (List Service) :=
  match qres with
  | .error e => .error e
  | .ok v => pagedGet ("/services?" ++ v) pages servicesPageHandler []

/-- The response-handler closure of `ListServiceRules` (source lines
263-279). -/
def rulesPageHandler (rules : List (Option ServiceRule)) (body : Json) : Except String (List (Option ServiceRule) × APIListObject) :=
  match decodeListServiceRulesResponse body with
  | .error e => .error e
  | .ok result =>
    .ok (rules ++ result.Rules,
         { More := result.More, Offset := result.Offset, Limit := result.Limit })

/-- `ListServiceRules` (source lines 257-288): drive the pagination and
return a `ListServiceRulesResponse` whose only populated field is the
accumulated `Rules`. -/
def ListServiceRules (serviceID : String) (pages : List (Except String Json)) : Except String ListServiceRulesResponse :=
  match pagedGet (listServiceRulesBasePath serviceID) pages rulesPageHandler [] with
  | .error e => .error e
  | .ok rules => .ok { Rules := rules }

/-- The more-flag pattern of a well-formed multi-page run: every page
reports `more` except the last. -/
def moreSeq : List Bool → Bool
  | [] => false
  | [b] => b == false
  | b :: rest => b && moreSeq rest

/-- A page of `ListServicesPaginated` that is fetched, decodes, and reports
`more`. -/
def goodServicesPage (p : Except String Json) : Prop :=
  ∃ body r, p = .ok body ∧ decodeListServiceResponse body = .ok r ∧
    r.APIListObject.More = true

/-- A page of `ListServicesPaginated` whose fetch fails or whose body does
not decode. -/
def badServicesPage (p : Except String Json) : Prop :=
  (∃ e, p = .error e) ∨
  ∃ body e, p = .ok body ∧ decodeListServiceResponse body = .error e

/-- A page of `ListServiceRules` that is fetched, decodes, and reports
`more`. -/
def goodRulesPage (p : Except String Json) : Prop :=
  ∃ body r, p = .ok body ∧ decodeListServiceRulesResponse body = .ok r ∧
    r.More = true

/-- A page of `ListServiceRules` whose fetch fails or whose body does not
decode. -/
def badRulesPage (p : Except String Json) : Prop :=
  (∃ e, p = .error e) ∨
  ∃ body e, p = .ok body ∧ decodeListServiceRulesResponse body = .error e

/-- Populatedness of a Service record: the claim C9 hypothesis that the
optional (pointer) fields are non-nil and the identifying strings
non-empty. -/
def ServicePopulated (s : Service) : Prop :=
  s.APIObject.ID ≠ "" ∧ s.Name ≠ "" ∧
  s.AutoResolveTimeout.isSome = true ∧ s.AcknowledgementTimeout.isSome = true ∧
  s.IncidentUrgencyRule.isSome = true ∧ s.SupportHours.isSome = true ∧
  s.AlertGroupingTimeout.isSome = true ∧ s.AlertGroupingParameters.isSome = true

/-- First page of the spec's two-page `ListServicesPaginated` scenario:
`{"services":[{"id":"S1"}],"more":true,"offset":0,"limit":1}`. -/
def svcPageBody1 : Json :=
  Json.obj [("services", Json.arr [Json.obj [("id", Json.str "S1")]]),
            ("more", Json.bool true), ("offset", Json.num 0), ("limit", Json.num 1)]

/-- Second page of the scenario:
`{"services":[{"id":"S2"}],"more":false,"offset":1,"limit":1}`. -/
def svcPageBody2 : Json :=
  Json.obj [("services", Json.arr [Json.obj [("id", Json.str "S2")]]),
            ("more", Json.bool false), ("offset", Json.num 1), ("limit", Json.num 1)]

/-- A rules page reporting a further page. -/
def rulesPageBody1 : Json :=
  Json.obj [("rules", Json.arr [Json.obj [("id", Json.str "R1")]]),
            ("more", Json.bool true), ("offset", Json.num 0), ("limit", Json.num 1)]

/-- A final rules page. -/
def rulesPageBodyLast : Json :=
  Json.obj [("rules", Json.arr [Json.obj [("id", Json.str "R2")]]),
            ("more", Json.bool false)]

/-- A sample populated integration record. -/
def integrationEx : Integration :=
  { APIObject := { ID := "I1" }, Name := "email" }

/-- A Service record with every optional field populated. -/
def servicePop : Service :=
  { APIObject := { ID := "PPOP" }, Name := "Web", Description := "d",
    AutoResolveTimeout := some 5, AcknowledgementTimeout := some 7,
    CreateAt := "2020-01-01T00:00:00Z", Status := "active",
    LastIncidentTimestamp := "2020-01-02T00:00:00Z",
    Integrations := [{ APIObject := { ID := "I1" }, Name := "email" }],
    EscalationPolicy := { raw := Json.obj [("id", Json.str "EP1")] },
    Teams := [{ raw := Json.obj [("id", Json.str "T1")] }],
    IncidentUrgencyRule := some { type' := "use_support_hours", Urgency := "high" },
    SupportHours := some { type' := "fixed_time_per_day", Timezone := "UTC",
                           StartTime := "09:00", EndTime := "17:00",
                           DaysOfWeek := [1, 2, 3] },
    ScheduledActions := [{ type' := "urgency_change",
                           At := { type' := "named_time", Name := "support_hours_start" },
                           ToUrgency := "high" }],
    AlertCreation := "create_alerts_and_incidents", AlertGrouping := "time",
    AlertGroupingTimeout := some 3,
    AlertGroupingParameters := some { type' := "time",
                                      Config := { Timeout := 60, Aggregate := "all",
                                                  Fields := ["summary"] } } }

/-! ### Field-lookup lemmas

`lookupField` over an encoded field list agrees with `lookupOF` over the
field list the encoder was given, provided the keys are distinct and no
distinct key collides case-insensitively with the looked-up one. -/

theorem bindOk {α β : Type} (x : α) (f : α → Except String β) :
    (Except.ok x >>= f) = f x := rfl

theorem lookupMap_absent {α : Type} (fs : List (String × α)) (k : String)
    (h : ∀ p ∈ fs, p.1 ≠ k) : lookupMap fs k = none := by
  induction fs with
  | nil => rfl
  | cons hd tl ih =>
    obtain ⟨k', v⟩ := hd
    have hne : k' ≠ k := h (k', v) (by simp)
    simp only [lookupMap, if_neg hne]
    exact ih fun p hp => h p (by simp [hp])

theorem ciLookup_absent (fs : List (String × Json)) (k : String)
    (h : ∀ p ∈ fs, asciiLower p.1 ≠ asciiLower k) : ciLookup fs k = none := by
  induction fs with
  | nil => rfl
  | cons hd tl ih =>
    obtain ⟨k', v⟩ := hd
    have hne : asciiLower k' ≠ asciiLower k := h (k', v) (by simp)
    simp only [ciLookup, if_neg hne]
    exact ih fun p hp => h p (by simp [hp])

theorem lookupField_absent (fs : List (String × Json)) (k : String)
    (h : ∀ p ∈ fs, asciiLower p.1 ≠ asciiLower k) : lookupField fs k = none := by
  have hex : lookupMap fs k = none :=
    lookupMap_absent fs k fun p hp he => h p hp (by rw [he])
  unfold lookupField
  rw [hex, ciLookup_absent fs k h]

theorem lookupField_cons_eq (k : String) (v : Json) (fs : List (String × Json)) :
    lookupField ((k, v) :: fs) k = some v := by
  simp [lookupField, lookupMap]

theorem lookupField_cons_skip (k k' : String) (v : Json) (fs : List (String × Json))
    (hci : asciiLower k' ≠ asciiLower k) :
    lookupField ((k', v) :: fs) k = lookupField fs k := by
  have hne : k' ≠ k := fun he => hci (by rw [he])
  unfold lookupField
  simp only [lookupMap, if_neg hne, ciLookup, if_neg hci]

theorem encodeFields_keys_sub (l : List (String × Option Json)) :
    ∀ p ∈ encodeFields l, p.1 ∈ l.map Prod.fst := by
  induction l with
  | nil => intro p hp; simp [encodeFields] at hp
  | cons hd tl ih =>
    obtain ⟨k', v?⟩ := hd
    cases v? with
    | none =>
      intro p hp
      simp only [encodeFields] at hp
      simp [ih p hp]
    | some v =>
      intro p hp
      simp only [encodeFields] at hp
      rcases List.mem_cons.mp hp with h | h
      · simp [h]
      · simp [ih p h]

theorem lookupField_encodeFields (l : List (String × Option Json))
    (ks : List String) (k : String)
    (hks : l.map Prod.fst = ks) (hnd : ks.Nodup)
    (hci : ∀ k' ∈ ks, asciiLower k' = asciiLower k → k' = k) :
    lookupField (encodeFields l) k = lookupOF l k := by
  subst hks
  induction l with
  | nil => rfl
  | cons hd tl ih =>
    obtain ⟨k', v?⟩ := hd
    simp only [List.map_cons, List.nodup_cons] at hnd hci
    have ih' := ih hnd.2 fun x hx hax => hci x (List.mem_cons_of_mem _ hx) hax
    by_cases hk : k' = k
    · subst hk
      cases v? with
      | some v => simp [encodeFields, lookupField_cons_eq, lookupOF]
      | none =>
        have habs : ∀ p ∈ encodeFields tl, asciiLower p.1 ≠ asciiLower k' := by
          intro p hp hlow
          have hmem : p.1 ∈ tl.map Prod.fst := encodeFields_keys_sub tl p hp
          have heq : p.1 = k' := hci p.1 (List.mem_cons_of_mem _ hmem) hlow
          exact hnd.1 (heq ▸ hmem)
        simp [encodeFields, lookupOF, lookupField_absent _ _ habs]
    · have hcine : asciiLower k' ≠ asciiLower k := fun h => hk (hci k' (List.mem_cons_self _ _) h)
      cases v? with
      | some v =>
        simp only [encodeFields]
        rw [lookupField_cons_skip _ _ _ _ hcine, ih']
        simp [lookupOF, hk]
      | none =>
        simp only [encodeFields]
        rw [ih']
        simp [lookupOF, hk]

/-! ### Round-trip lemmas: decoding an encoded field value restores it -/

theorem decStr_encStrOmit (s : String) : decStr (encStrOmit s) = .ok s := by
  by_cases h : s = "" <;> simp [encStrOmit, decStr, h]

theorem decStr_encStrReq (s : String) : decStr (encStrReq s) = .ok s := rfl

theorem decUIntEl_num (n : Nat) : decUIntEl (Json.num n) = .ok n := by
  simp only [decUIntEl]
  rw [if_neg (by omega)]
  simp

theorem decUInt_encUIntOmit (n : Nat) : decUInt (encUIntOmit n) = .ok n := by
  by_cases h : n = 0
  · simp [encUIntOmit, decUInt, h]
  · simp [encUIntOmit, decUInt, h, decUIntEl_num]

theorem decBool_encBoolOmit (b : Bool) : decBool (encBoolOmit b) = .ok b := by
  cases b <;> rfl

theorem decIntEl_num (n : Int) : decIntEl (Json.num n) = .ok n := rfl

theorem decPtr_encPtr {α : Type} (d : Json → Except String α) (e : α → Json)
    (h : ∀ x, d (e x) = .ok x) (hnn : ∀ x, e x ≠ Json.null) (o : Option α) :
    decPtr d (encPtr e o) = .ok o := by
  cases o with
  | none => rfl
  | some x =>
    have hd := h x
    have hn := hnn x
    cases he : e x <;> simp_all [encPtr, decPtr, Except.map]

theorem mapM_loop_roundtrip {α : Type} (d : Json → Except String α) (e : α → Json)
    (h : ∀ x, d (e x) = .ok x) (l : List α) :
    ∀ acc : List α, List.mapM.loop d (l.map e) acc = .ok (acc.reverse ++ l) := by
  induction l with
  | nil => intro acc; simp only [List.map_nil, List.mapM.loop, List.append_nil]; rfl
  | cons x xs ih =>
    intro acc
    simp only [List.map_cons, List.mapM.loop, h, bindOk, ih (x :: acc)]
    simp

theorem mapM_roundtrip {α : Type} (d : Json → Except String α) (e : α → Json)
    (h : ∀ x, d (e x) = .ok x) (l : List α) : (l.map e).mapM d = .ok l := by
  simpa using mapM_loop_roundtrip d e h l []

theorem decSlice_encSliceOmit {α : Type} (d : Json → Except String α) (e : α → Json)
    (h : ∀ x, d (e x) = .ok x) (l : List α) : decSlice d (encSliceOmit e l) = .ok l := by
  cases l with
  | nil => rfl
  | cons x xs =>
    simp only [encSliceOmit, decSlice]
    exact mapM_roundtrip d e h (x :: xs)

theorem decStruct_encStruct {α : Type} (d : Json → Except String α) (e : α → Json)
    (z : α) (h : ∀ x, d (e x) = .ok x) (v : α) :
    decStruct d z (encStruct e v) = .ok v := by
  simp [decStruct, encStruct, h]

/-! ### Round-trip lemmas for the records of the Service tree -/

theorem decodeAPIObject_enc (a : APIObject) :
    decodeAPIObject (encodeAPIObject a) = .ok a := by
  simp only [encodeAPIObject, decodeAPIObject]
  rw [lookupField_encodeFields (apiObjectFields a) ["id"] "id" rfl (by decide) (by decide)]
  simp [lookupOF, apiObjectFields, decStr_encStrOmit, bindOk]

theorem decodeEscalationPolicy_enc (x : EscalationPolicy) :
    decodeEscalationPolicy (encodeEscalationPolicy x) = .ok x := rfl

theorem decodeTeam_enc (x : Team) : decodeTeam (encodeTeam x) = .ok x := rfl

theorem decodeIntegration_enc (i : Integration) :
    decodeIntegration (encodeIntegration i) = .ok i := by
  have hapi : ∀ o : Option APIObject,
      decPtr decodeAPIObject (encPtr encodeAPIObject o) = .ok o :=
    decPtr_encPtr _ _ decodeAPIObject_enc (fun x => by simp [encodeAPIObject])
  have hlf : ∀ k : String,
      (∀ k' ∈ ["id", "name", "service", "created_at", "vendor", "type",
               "integration_key", "integration_email"],
        asciiLower k' = asciiLower k → k' = k) →
      lookupField (encodeFields (integrationFields i)) k = lookupOF (integrationFields i) k :=
    fun k hci => lookupField_encodeFields (integrationFields i)
      ["id", "name", "service", "created_at", "vendor", "type",
       "integration_key", "integration_email"] k rfl (by decide) hci
  simp only [encodeIntegration, decodeIntegration]
  rw [hlf "id" (by decide), hlf "name" (by decide), hlf "service" (by decide),
      hlf "created_at" (by decide), hlf "vendor" (by decide), hlf "type" (by decide),
      hlf "integration_key" (by decide), hlf "integration_email" (by decide)]
  simp [lookupOF, integrationFields, apiObjectFields, decStr_encStrOmit, hapi, bindOk]

theorem decodeInlineModel_enc (m : InlineModel) :
    decodeInlineModel (encodeInlineModel m) = .ok m := by
  have hlf : ∀ k : String,
      (∀ k' ∈ ["type", "name"], asciiLower k' = asciiLower k → k' = k) →
      lookupField (encodeFields (inlineModelFields m)) k = lookupOF (inlineModelFields m) k :=
    fun k hci => lookupField_encodeFields (inlineModelFields m) ["type", "name"] k rfl (by decide) hci
  simp only [encodeInlineModel, decodeInlineModel]
  rw [hlf "type" (by decide), hlf "name" (by decide)]
  simp [lookupOF, inlineModelFields, decStr_encStrOmit, bindOk]

theorem decodeScheduledAction_enc (a : ScheduledAction) :
    decodeScheduledAction (encodeScheduledAction a) = .ok a := by
  have hat : ∀ v : InlineModel,
      decStruct decodeInlineModel {} (encStruct encodeInlineModel v) = .ok v :=
    decStruct_encStruct _ _ _ decodeInlineModel_enc
  have hlf : ∀ k : String,
      (∀ k' ∈ ["type", "at", "to_urgency"], asciiLower k' = asciiLower k → k' = k) →
      lookupField (encodeFields (scheduledActionFields a)) k = lookupOF (scheduledActionFields a) k :=
    fun k hci => lookupField_encodeFields (scheduledActionFields a) ["type", "at", "to_urgency"] k rfl (by decide) hci
  simp only [encodeScheduledAction, decodeScheduledAction]
  rw [hlf "type" (by decide), hlf "at" (by decide), hlf "to_urgency" (by decide)]
  simp [lookupOF, scheduledActionFields, decStr_encStrOmit, decStr_encStrReq, hat, bindOk]

theorem decodeIncidentUrgencyType_enc (t : IncidentUrgencyType) :
    decodeIncidentUrgencyType (encodeIncidentUrgencyType t) = .ok t := by
  have hlf : ∀ k : String,
      (∀ k' ∈ ["type", "urgency"], asciiLower k' = asciiLower k → k' = k) →
      lookupField (encodeFields (incidentUrgencyTypeFields t)) k = lookupOF (incidentUrgencyTypeFields t) k :=
    fun k hci => lookupField_encodeFields (incidentUrgencyTypeFields t) ["type", "urgency"] k rfl (by decide) hci
  simp only [encodeIncidentUrgencyType, decodeIncidentUrgencyType]
  rw [hlf "type" (by decide), hlf "urgency" (by decide)]
  simp [lookupOF, incidentUrgencyTypeFields, decStr_encStrOmit, bindOk]

theorem decodeSupportHours_enc (h : SupportHours) :
    decodeSupportHours (encodeSupportHours h) = .ok h := by
  have hdays : ∀ l : List Nat,
      decSlice decUIntEl (encSliceOmit (fun n : Nat => Json.num n) l) = .ok l :=
    decSlice_encSliceOmit _ _ decUIntEl_num
  have hlf : ∀ k : String,
      (∀ k' ∈ ["type", "time_zone", "start_time", "end_time", "days_of_week"],
        asciiLower k' = asciiLower k → k' = k) →
      lookupField (encodeFields (supportHoursFields h)) k = lookupOF (supportHoursFields h) k :=
    fun k hci => lookupField_encodeFields (supportHoursFields h)
      ["type", "time_zone", "start_time", "end_time", "days_of_week"] k rfl (by decide) hci
  simp only [encodeSupportHours, decodeSupportHours]
  rw [hlf "type" (by decide), hlf "time_zone" (by decide), hlf "start_time" (by decide),
      hlf "end_time" (by decide), hlf "days_of_week" (by decide)]
  simp [lookupOF, supportHoursFields, decStr_encStrOmit, hdays, bindOk]

theorem decodeIncidentUrgencyRule_enc (r : IncidentUrgencyRule) :
    decodeIncidentUrgencyRule (encodeIncidentUrgencyRule r) = .ok r := by
  have hiut : ∀ o : Option IncidentUrgencyType,
      decPtr decodeIncidentUrgencyType (encPtr encodeIncidentUrgencyType o) = .ok o :=
    decPtr_encPtr _ _ decodeIncidentUrgencyType_enc (fun x => by simp [encodeIncidentUrgencyType])
  have hlf : ∀ k : String,
      (∀ k' ∈ ["type", "urgency", "during_support_hours", "outside_support_hours"],
        asciiLower k' = asciiLower k → k' = k) →
      lookupField (encodeFields (incidentUrgencyRuleFields r)) k = lookupOF (incidentUrgencyRuleFields r) k :=
    fun k hci => lookupField_encodeFields (incidentUrgencyRuleFields r)
      ["type", "urgency", "during_support_hours", "outside_support_hours"] k rfl (by decide) hci
  simp only [encodeIncidentUrgencyRule, decodeIncidentUrgencyRule]
  rw [hlf "type" (by decide), hlf "urgency" (by decide),
      hlf "during_support_hours" (by decide), hlf "outside_support_hours" (by decide)]
  simp [lookupOF, incidentUrgencyRuleFields, decStr_encStrOmit, hiut, bindOk]

theorem decodeAlertGroupParamsConfig_enc (c : AlertGroupParamsConfig) :
    decodeAlertGroupParamsConfig (encodeAlertGroupParamsConfig c) = .ok c := by
  have hfields : ∀ l : List String,
      decSlice decStrEl (encSliceOmit (fun s => Json.str s) l) = .ok l :=
    decSlice_encSliceOmit _ _ (fun s => rfl)
  have hlf : ∀ k : String,
      (∀ k' ∈ ["timeout", "aggregate", "fields"], asciiLower k' = asciiLower k → k' = k) →
      lookupField (encodeFields (alertGroupParamsConfigFields c)) k = lookupOF (alertGroupParamsConfigFields c) k :=
    fun k hci => lookupField_encodeFields (alertGroupParamsConfigFields c)
      ["timeout", "aggregate", "fields"] k rfl (by decide) hci
  simp only [encodeAlertGroupParamsConfig, decodeAlertGroupParamsConfig]
  rw [hlf "timeout" (by decide), hlf "aggregate" (by decide), hlf "fields" (by decide)]
  simp [lookupOF, alertGroupParamsConfigFields, decUInt_encUIntOmit, decStr_encStrOmit,
        hfields, bindOk]

theorem decodeAlertGroupingParameters_enc (p : AlertGroupingParameters) :
    decodeAlertGroupingParameters (encodeAlertGroupingParameters p) = .ok p := by
  have hconf : ∀ v : AlertGroupParamsConfig,
      decStruct decodeAlertGroupParamsConfig {} (encStruct encodeAlertGroupParamsConfig v) = .ok v :=
    decStruct_encStruct _ _ _ decodeAlertGroupParamsConfig_enc
  have hlf : ∀ k : String,
      (∀ k' ∈ ["type", "config"], asciiLower k' = asciiLower k → k' = k) →
      lookupField (encodeFields (alertGroupingParametersFields p)) k = lookupOF (alertGroupingParametersFields p) k :=
    fun k hci => lookupField_encodeFields (alertGroupingParametersFields p) ["type", "config"] k rfl (by decide) hci
  simp only [encodeAlertGroupingParameters, decodeAlertGroupingParameters]
  rw [hlf "type" (by decide), hlf "config" (by decide)]
  simp [lookupOF, alertGroupingParametersFields, decStr_encStrReq, hconf, bindOk]

/-- Decoding an encoded `Service` restores it field-for-field: the central
round-trip fact. -/
theorem decodeService_enc (s : Service) :
    decodeService (encodeService s) = .ok s := by
  have hnum : ∀ o : Option Nat,
      decPtr decUIntEl (encPtr (fun n : Nat => Json.num n) o) = .ok o :=
    decPtr_encPtr _ _ decUIntEl_num (fun n => by simp)
  have hintg : ∀ l : List Integration,
      decSlice decodeIntegration (encSliceOmit encodeIntegration l) = .ok l :=
    decSlice_encSliceOmit _ _ decodeIntegration_enc
  have hesc : ∀ v : EscalationPolicy,
      decStruct decodeEscalationPolicy {} (encStruct encodeEscalationPolicy v) = .ok v :=
    decStruct_encStruct _ _ _ decodeEscalationPolicy_enc
  have hteams : ∀ l : List Team,
      decSlice decodeTeam (encSliceOmit encodeTeam l) = .ok l :=
    decSlice_encSliceOmit _ _ decodeTeam_enc
  have hiur : ∀ o : Option IncidentUrgencyRule,
      decPtr decodeIncidentUrgencyRule (encPtr encodeIncidentUrgencyRule o) = .ok o :=
    decPtr_encPtr _ _ decodeIncidentUrgencyRule_enc (fun x => by simp [encodeIncidentUrgencyRule])
  have hsh : ∀ o : Option SupportHours,
      decPtr decodeSupportHours (encPtr encodeSupportHours o) = .ok o :=
    decPtr_encPtr _ _ decodeSupportHours_enc (fun x => by simp [encodeSupportHours])
  have hsched : ∀ l : List ScheduledAction,
      decSlice decodeScheduledAction (encSliceOmit encodeScheduledAction l) = .ok l :=
    decSlice_encSliceOmit _ _ decodeScheduledAction_enc
  have hagp : ∀ o : Option AlertGroupingParameters,
      decPtr decodeAlertGroupingParameters (encPtr encodeAlertGroupingParameters o) = .ok o :=
    decPtr_encPtr _ _ decodeAlertGroupingParameters_enc (fun x => by simp [encodeAlertGroupingParameters])
  have hlf : ∀ k : String,
      (∀ k' ∈ ["id", "name", "description", "auto_resolve_timeout",
               "acknowledgement_timeout", "created_at", "status",
               "last_incident_timestamp", "integrations", "escalation_policy",
               "teams", "incident_urgency_rule", "support_hours",
               "scheduled_actions", "alert_creation", "alert_grouping",
               "alert_grouping_timeout", "alert_grouping_parameters"],
        asciiLower k' = asciiLower k → k' = k) →
      lookupField (encodeFields (serviceFields s)) k = lookupOF (serviceFields s) k :=
    fun k hci => lookupField_encodeFields (serviceFields s)
      ["id", "name", "description", "auto_resolve_timeout",
       "acknowledgement_timeout", "created_at", "status",
       "last_incident_timestamp", "integrations", "escalation_policy",
       "teams", "incident_urgency_rule", "support_hours",
       "scheduled_actions", "alert_creation", "alert_grouping",
       "alert_grouping_timeout", "alert_grouping_parameters"] k rfl (by decide) hci
  simp only [encodeService, decodeService]
  rw [hlf "id" (by decide), hlf "name" (by decide), hlf "description" (by decide),
      hlf "auto_resolve_timeout" (by decide), hlf "acknowledgement_timeout" (by decide),
      hlf "created_at" (by decide), hlf "status" (by decide),
      hlf "last_incident_timestamp" (by decide), hlf "integrations" (by decide),
      hlf "escalation_policy" (by decide), hlf "teams" (by decide),
      hlf "incident_urgency_rule" (by decide), hlf "support_hours" (by decide),
      hlf "scheduled_actions" (by decide), hlf "alert_creation" (by decide),
      hlf "alert_grouping" (by decide), hlf "alert_grouping_timeout" (by decide),
      hlf "alert_grouping_parameters" (by decide)]
  simp [lookupOF, serviceFields, apiObjectFields, decStr_encStrOmit, hnum, hintg,
        hesc, hteams, hiur, hsh, hsched, hagp, bindOk]

/-! ### Pagination lemmas -/

/-- If every page before some bad page is fetched, decoded and reports
`more`, and the bad page's fetch or handling fails, the driver fails. -/
theorem pagedGet_error_of_bad {σ : Type} (bp : String)
    (handler : σ → Json → Except String (σ × APIListObject))
    (good : List (Except String Json)) (bad : Except String Json)
    (rest : List (Except String Json))
    (hgood : ∀ p ∈ good, ∃ body, p = .ok body ∧
      ∀ acc, ∃ acc' meta, handler acc body = .ok (acc', meta) ∧ meta.More = true)
    (hbad : (∃ e, bad = .error e) ∨
      (∃ body, bad = .ok body ∧ ∀ acc, ∃ e, handler acc body = .error e)) :
    ∀ acc, ∃ e, pagedGet bp (good ++ bad :: rest) handler acc = .error e := by
  induction good with
  | nil =>
    intro acc
    rcases hbad with ⟨e, he⟩ | ⟨body, hb, hh⟩
    · subst he; exact ⟨e, rfl⟩
    · subst hb
      obtain ⟨e, he⟩ := hh acc
      exact ⟨e, by simp [pagedGet, he]⟩
  | cons p tl ih =>
    intro acc
    obtain ⟨body, hp, hh⟩ := hgood p (by simp)
    subst hp
    obtain ⟨acc', meta, hok, hmore⟩ := hh acc
    obtain ⟨e, he⟩ := ih (fun q hq => hgood q (by simp [hq])) acc'
    exact ⟨e, by simp [pagedGet, hok, hmore, he]⟩

/-- A non-empty run of pages that all decode, appending their items and
reporting `more` until the last, makes the driver return the accumulated
concatenation in page order. -/
theorem pagedGet_concat {ι : Type} (bp : String)
    (handler : List ι → Json → Except String (List ι × APIListObject))
    (ps : List (Json × List ι × Bool))
    (hh : ∀ p ∈ ps, ∀ acc, ∃ meta,
      handler acc p.1 = .ok (acc ++ p.2.1, meta) ∧ meta.More = p.2.2)
    (hmore : moreSeq (ps.map (fun p => p.2.2)) = true) :
    ∀ acc, pagedGet bp (ps.map (fun p => .ok p.1)) handler acc
      = .ok (acc ++ (ps.map (fun p => p.2.1)).flatten) := by
  induction ps with
  | nil => simp [moreSeq] at hmore
  | cons p tl ih =>
    intro acc
    obtain ⟨meta, hok, hmeta⟩ := hh p (by simp) acc
    cases tl with
    | nil =>
      have hfalse : p.2.2 = false := by simpa [moreSeq] using hmore
      rw [hfalse] at hmeta
      simp [pagedGet, hok, hmeta]
    | cons q tl' =>
      have hsplit : p.2.2 = true ∧ moreSeq ((q :: tl').map (fun r => r.2.2)) = true := by
        simpa [moreSeq] using hmore
      rw [hsplit.1] at hmeta
      have ihh := ih (fun r hr => hh r (by simp [hr])) hsplit.2 (acc ++ p.2.1)
      simp only [List.map_cons, pagedGet, hok, hmeta, if_true] at ihh ⊢
      rw [ihh]
      simp [List.append_assoc]

/-! ### The claims -/

/-- C1: for every decoded JSON response body that is a valid object but
lacks the expected root key, each unwrap helper (`getServiceFromResponse`,
`getIntegrationFromResponse`, `getServiceRuleFromResponse`) returns the
missing-field error naming the root field — it neither panics nor returns a
silently empty resource. -/
theorem claim_C1 :
    (∀ (body : Json) (m : List (String × Service)),
      decodeMapService body = .ok m → lookupMap m "service" = none →
      getServiceFromResponse (some body) none
        = .fail "JSON response does not have service field") ∧
    (∀ (body : Json) (m : List (String × Integration)),
      decodeMapIntegration body = .ok m → lookupMap m "integration" = none →
      getIntegrationFromResponse (some body) none
        = .fail "JSON response does not have integration field") ∧
    (∀ (body : Json) (m : List (String × ServiceRule)),
      decodeMapServiceRule body = .ok m → lookupMap m "rule" = none →
      getServiceRuleFromResponse (some body) none
        = .fail "JSON response does not have rule field") := by
  refine ⟨fun body m hdec hlk => ?_, fun body m hdec hlk => ?_, fun body m hdec hlk => ?_⟩
  · simp [getServiceFromResponse, hdec, hlk]
  · simp [getIntegrationFromResponse, hdec, hlk]
  · simp [getServiceRuleFromResponse, hdec, hlk]

/-- Witness for C1 at the body `{"foo": {}}`, which decodes to a valid
single-key map without any of the three root keys. -/
theorem claim_C1_witness :
    getServiceFromResponse (some (Json.obj [("foo", Json.obj [])])) none
      = .fail "JSON response does not have service field" ∧
    getIntegrationFromResponse (some (Json.obj [("foo", Json.obj [])])) none
      = .fail "JSON response does not have integration field" ∧
    getServiceRuleFromResponse (some (Json.obj [("foo", Json.obj [])])) none
      = .fail "JSON response does not have rule field" :=
  ⟨claim_C1.1 (Json.obj [("foo", Json.obj [])]) [("foo", {})] rfl rfl,
   claim_C1.2.1 (Json.obj [("foo", Json.obj [])]) [("foo", {})] rfl rfl,
   claim_C1.2.2 (Json.obj [("foo", Json.obj [])]) [("foo", {})] rfl rfl⟩

/-- C2 (code-bug evaluation): on a body that is valid JSON but not the
envelope shape, `getServiceFromResponse` and `getServiceRuleFromResponse`
wrap the underlying decode error `dErr` in their message, but
`getIntegrationFromResponse` formats the outer (nil) `err` instead, so its
message ends in `<nil>` and the decode cause is lost. -/
theorem claim_C2_bug_eval :
    getIntegrationFromResponse (some (Json.str "x")) none
      = .fail "Could not decode JSON response: <nil>" ∧
    getServiceFromResponse (some (Json.str "x")) none
      = .fail ("Could not decode JSON response: "
          ++ typeErr (Json.str "x") "map[string]pagerduty.Service") ∧
    getServiceRuleFromResponse (some (Json.str "x")) none
      = .fail ("Could not decode JSON response: "
          ++ typeErr (Json.str "x") "map[string]pagerduty.ServiceRule") :=
  ⟨rfl, rfl, rfl⟩

/-- C3 counterexample: `UpdateIntegration` sends the bare `Integration`
record as the request body — not a single-key `integration` envelope. -/
theorem claim_C3_counterexample :
    (updateIntegrationRequest "S1" integrationEx).body
      = some (Json.obj [("id", Json.str "I1"), ("name", Json.str "email")]) ∧
    ∀ inner : Json, (updateIntegrationRequest "S1" integrationEx).body
      ≠ some (Json.obj [("integration", inner)]) := by
  constructor
  · rfl
  · intro inner h
    have hb : (updateIntegrationRequest "S1" integrationEx).body
        = some (Json.obj [("id", Json.str "I1"), ("name", Json.str "email")]) := rfl
    rw [hb] at h
    simp at h

/-- C3 amended: every create and update operation wraps its record in the
resource's single-key envelope — except `UpdateIntegration`, which sends
the bare record. -/
theorem claim_C3_amended :
    (∀ s : Service, (createServiceRequest s).body
      = some (Json.obj [("service", encodeService s)])) ∧
    (∀ s : Service, (updateServiceRequest s).body
      = some (Json.obj [("service", encodeService s)])) ∧
    (∀ (sid : String) (i : Integration), (createIntegrationRequest sid i).body
      = some (Json.obj [("integration", encodeIntegration i)])) ∧
    (∀ (sid : String) (r : ServiceRule), (createServiceRuleRequest sid r).body
      = some (Json.obj [("rule", encodeServiceRule r)])) ∧
    (∀ (sid rid : String) (r : ServiceRule), (updateServiceRuleRequest sid rid r).body
      = some (Json.obj [("rule", encodeServiceRule r)])) ∧
    (∀ (sid : String) (i : Integration), (updateIntegrationRequest sid i).body
      = some (encodeIntegration i)) :=
  ⟨fun _ => rfl, fun _ => rfl, fun _ _ => rfl, fun _ _ => rfl,
   fun _ _ _ => rfl, fun _ _ => rfl⟩

/-- C4: if every page before some page succeeds (decodes, reports `more`)
and that page's fetch or decode fails, `ListServicesPaginated` and
`ListServiceRules` return an error — the items accumulated from the earlier
pages are discarded, never a part-list. -/
theorem claim_C4 :
    (∀ (q : String) (good : List (Except String Json)) (bad : Except String Json)
        (rest : List (Except String Json)),
      (∀ p ∈ good, goodServicesPage p) → badServicesPage bad →
      ∃ e, ListServicesPaginated (.ok q) (good ++ bad :: rest) = .error e) ∧
    (∀ (sid : String) (good : List (Except String Json)) (bad : Except String Json)
        (rest : List (Except String Json)),
      (∀ p ∈ good, goodRulesPage p) → badRulesPage bad →
      ∃ e, ListServiceRules sid (good ++ bad :: rest) = .error e) := by
  constructor
  · intro q good bad rest hgood hbad
    have h := pagedGet_error_of_bad ("/services?" ++ q) servicesPageHandler good bad rest
      (fun p hp => by
        obtain ⟨body, r, hpe, hdec, hm⟩ := hgood p hp
        exact ⟨body, hpe, fun acc =>
          ⟨acc ++ r.Services,
           { More := r.APIListObject.More, Offset := r.APIListObject.Offset,
             Limit := r.APIListObject.Limit },
           by simp [servicesPageHandler, hdec], hm⟩⟩)
      (by
        rcases hbad with ⟨e, he⟩ | ⟨body, e, hpe, hdec⟩
        · exact Or.inl ⟨e, he⟩
        · exact Or.inr ⟨body, hpe, fun acc => ⟨e, by simp [servicesPageHandler, hdec]⟩⟩)
      []
    obtain ⟨e, he⟩ := h
    exact ⟨e, by simpa [ListServicesPaginated] using he⟩
  · intro sid good bad rest hgood hbad
    have h := pagedGet_error_of_bad (listServiceRulesBasePath sid) rulesPageHandler good bad rest
      (fun p hp => by
        obtain ⟨body, r, hpe, hdec, hm⟩ := hgood p hp
        exact ⟨body, hpe, fun acc =>
          ⟨acc ++ r.Rules,
           { More := r.More, Offset := r.Offset, Limit := r.Limit },
           by simp [rulesPageHandler, hdec], hm⟩⟩)
      (by
        rcases hbad with ⟨e, he⟩ | ⟨body, e, hpe, hdec⟩
        · exact Or.inl ⟨e, he⟩
        · exact Or.inr ⟨body, hpe, fun acc => ⟨e, by simp [rulesPageHandler, hdec]⟩⟩)
      []
    obtain ⟨e, he⟩ := h
    exact ⟨e, by simp [ListServiceRules, he]⟩

/-- Witness for C4: a successful first page followed by a failed fetch
yields an error for both list operations. -/
theorem claim_C4_witness :
    (∃ e, ListServicesPaginated (.ok "") [.ok svcPageBody1, .error "network timeout"]
      = .error e) ∧
    (∃ e, ListServiceRules "SVC" [.ok rulesPageBody1, .error "network timeout"]
      = .error e) := by
  refine ⟨claim_C4.1 "" [.ok svcPageBody1] (.error "network timeout") [] ?_
            (Or.inl ⟨"network timeout", rfl⟩),
          claim_C4.2 "SVC" [.ok rulesPageBody1] (.error "network timeout") [] ?_
            (Or.inl ⟨"network timeout", rfl⟩)⟩
  · intro p hp
    simp only [List.mem_singleton] at hp
    subst hp
    exact ⟨svcPageBody1,
      { APIListObject := { Limit := 1, Offset := 0, More := true },
        Services := [{ APIObject := { ID := "S1" } }] }, rfl, rfl, rfl⟩
  · intro p hp
    simp only [List.mem_singleton] at hp
    subst hp
    exact ⟨rulesPageBody1,
      { Offset := 0, Limit := 1, More := true, Rules := [some { ID := "R1" }] },
      rfl, rfl, rfl⟩

/-- C5: a multi-page run in which every page decodes and reports `more`
until the last makes `ListServicesPaginated` and `ListServiceRules` return
exactly the concatenation of the pages' items in page order — no
reordering, deduplication or omission. -/
theorem claim_C5 :
    (∀ (q : String) (ps : List (Json × ListServiceResponse)),
      (∀ p ∈ ps, decodeListServiceResponse p.1 = .ok p.2) →
      moreSeq (ps.map (fun p => p.2.APIListObject.More)) = true →
      ListServicesPaginated (.ok q) (ps.map (fun p => .ok p.1))
        = .ok (ps.map (fun p => p.2.Services)).flatten) ∧
    (∀ (sid : String) (ps : List (Json × ListServiceRulesResponse)),
      (∀ p ∈ ps, decodeListServiceRulesResponse p.1 = .ok p.2) →
      moreSeq (ps.map (fun p => p.2.More)) = true →
      ListServiceRules sid (ps.map (fun p => .ok p.1))
        = .ok { Rules := (ps.map (fun p => p.2.Rules)).flatten }) := by
  constructor
  · intro q ps hdec hmore
    have h := pagedGet_concat ("/services?" ++ q) servicesPageHandler
      (ps.map (fun p => (p.1, p.2.Services, p.2.APIListObject.More)))
      (fun p' hp' acc => by
        obtain ⟨p, hp, rfl⟩ := List.mem_map.mp hp'
        exact ⟨{ More := p.2.APIListObject.More, Offset := p.2.APIListObject.Offset,
                 Limit := p.2.APIListObject.Limit },
               by simp [servicesPageHandler, hdec p hp], rfl⟩)
      (by simpa [List.map_map, Function.comp] using hmore)
      []
    simpa [ListServicesPaginated, List.map_map, Function.comp] using h
  · intro sid ps hdec hmore
    have h := pagedGet_concat (listServiceRulesBasePath sid) rulesPageHandler
      (ps.map (fun p => (p.1, p.2.Rules, p.2.More)))
      (fun p' hp' acc => by
        obtain ⟨p, hp, rfl⟩ := List.mem_map.mp hp'
        exact ⟨{ More := p.2.More, Offset := p.2.Offset, Limit := p.2.Limit },
               by simp [rulesPageHandler, hdec p hp], rfl⟩)
      (by simpa [List.map_map, Function.comp] using hmore)
      []
    have h' : pagedGet (listServiceRulesBasePath sid) (ps.map (fun p => .ok p.1))
        rulesPageHandler [] = .ok (ps.map (fun p => p.2.Rules)).flatten := by
      simpa using h
    simp [ListServiceRules, h']

/-- Witness for C5: the spec's two-page scenario returns `[S1, S2]` in that
order, and a two-page rules run concatenates `[R1, R2]`. -/
theorem claim_C5_witness :
    ListServicesPaginated (.ok "") [.ok svcPageBody1, .ok svcPageBody2]
      = .ok [{ APIObject := { ID := "S1" } }, { APIObject := { ID := "S2" } }] ∧
    ListServiceRules "SVC" [.ok rulesPageBody1, .ok rulesPageBodyLast]
      = .ok { Rules := [some { ID := "R1" }, some { ID := "R2" }] } := by
  constructor
  · have h := claim_C5.1 ""
      [(svcPageBody1, { APIListObject := { Limit := 1, Offset := 0, More := true },
                        Services := [{ APIObject := { ID := "S1" } }] }),
       (svcPageBody2, { APIListObject := { Limit := 1, Offset := 1, More := false },
                        Services := [{ APIObject := { ID := "S2" } }] })]
      (by
        intro p hp
        simp only [List.mem_cons, List.not_mem_nil, or_false] at hp
        rcases hp with h1 | h1 <;> subst h1 <;> rfl)
      rfl
    simpa using h
  · have h := claim_C5.2 "SVC"
      [(rulesPageBody1, { Offset := 0, Limit := 1, More := true,
                          Rules := [some { ID := "R1" }] }),
       (rulesPageBodyLast, { More := false, Rules := [some { ID := "R2" }] })]
      (by
        intro p hp
        simp only [List.mem_cons, List.not_mem_nil, or_false] at hp
        rcases hp with h1 | h1 <;> subst h1 <;> rfl)
      rfl
    simpa using h

/-- C6 (code-bug evaluation): when the HTTP request fails with a nil
response, `getServiceFromResponse` — and therefore `GetService` — reads
`resp.Status`/`resp.Body` before returning and panics instead of returning
the error. -/
theorem claim_C6_bug_eval :
    GetService "PXXXXXX" (.ok "") (fun _ => (none, some "connection refused"))
      = .panics ∧
    getServiceFromResponse none (some "connection refused") = .panics :=
  ⟨rfl, rfl⟩

/-- C7: `GetService("PXXXXXX", nil)` against a response whose body is
`{"service":{"id":"PXXXXXX","name":"Web"}}` returns a Service with ID
`PXXXXXX` and Name `Web`, with no error. -/
theorem claim_C7 :
    ∃ s : Service,
      GetService "PXXXXXX" (.ok "")
        (fun _ => (some (Json.obj [("service",
            Json.obj [("id", Json.str "PXXXXXX"), ("name", Json.str "Web")])]), none))
        = .ok s ∧ s.APIObject.ID = "PXXXXXX" ∧ s.Name = "Web" :=
  ⟨{ APIObject := { ID := "PXXXXXX" }, Name := "Web" }, rfl, rfl, rfl⟩

/-- C8 counterexample: `CreateServiceRule` posts to the collection path
with a trailing slash, so its path is not exactly `/services/:id/rules`. -/
theorem claim_C8_counterexample :
    (createServiceRuleRequest "S1" {}).path = "/services/S1/rules/" ∧
    (createServiceRuleRequest "S1" {}).path ≠ "/services/S1/rules" :=
  ⟨rfl, by decide⟩

/-- C8 amended: the service-rule request paths are exactly
`/services/:id/rules` for the list operation and `/services/:id/rules/:id`
for get/delete/update, while `CreateServiceRule` uses
`/services/:id/rules/` with a trailing slash. -/
theorem claim_C8_amended :
    (∀ sid : String, listServiceRulesBasePath sid = "/services/" ++ sid ++ "/rules") ∧
    (∀ sid rid : String, (getServiceRuleRequest sid rid).path
      = "/services/" ++ sid ++ "/rules/" ++ rid) ∧
    (∀ sid rid : String, (deleteServiceRuleRequest sid rid).path
      = "/services/" ++ sid ++ "/rules/" ++ rid) ∧
    (∀ (sid : String) (r : ServiceRule), (createServiceRuleRequest sid r).path
      = "/services/" ++ sid ++ "/rules/") ∧
    (∀ (sid rid : String) (r : ServiceRule), (updateServiceRuleRequest sid rid r).path
      = "/services/" ++ sid ++ "/rules/" ++ rid) :=
  ⟨fun _ => rfl, fun _ _ => rfl, fun _ _ => rfl, fun _ _ => rfl, fun _ _ _ => rfl⟩

/-- C9: for a populated Service record, wrapping its encoding in the
`service` envelope and running it through the response decoder restores the
record field-for-field. -/
theorem claim_C9 (s : Service) (_hp : ServicePopulated s) :
    getServiceFromResponse (some (Json.obj [("service", encodeService s)])) none
      = .ok s := by
  have hdec : decodeMapService (Json.obj [("service", encodeService s)])
      = .ok [("service", s)] := by
    simp [decodeMapService, List.mapM, List.mapM.loop, decodeService_enc, bindOk]
  simp [getServiceFromResponse, hdec, lookupMap]

/-- Witness for C9 at a concrete fully-populated Service record. -/
theorem claim_C9_witness :
    ServicePopulated servicePop ∧
    getServiceFromResponse (some (Json.obj [("service", encodeService servicePop)])) none
      = .ok servicePop :=
  ⟨by unfold ServicePopulated servicePop; decide,
   claim_C9 servicePop (by unfold ServicePopulated servicePop; decide)⟩

/-- C10: the error `query.Values` might produce inside `GetService` is
discarded — the result is the same as for a successfully encoded empty
query, for every id, every send capability and every query error. -/
theorem claim_C10 (id : String) (send : SendFn) (e : String) :
    GetService id (.error e) send = GetService id (.ok "") send := rfl

end Pagerduty
